import Mathlib

/-!
Shallow embedding of the session-state core of an AI-assisted media editor.

The embedded code is the front-end Zustand store (`frontend/lib/store.ts`):
the media library with per-entry undo/redo version stacks
(`versionHistory` / `redoHistory`), the chat message log, the
active-selection pointers and the project persistence actions.  An earlier
revision of the same store (shipped alongside the current one) still
performed the library-side version append inside `handleSuccessfulEdit`;
that revision is embedded as `handleSuccessfulEditV1`.

State mutation is modelled by pure functions `AppState → AppState`; actions
that in the source issue network requests additionally return the list of
requests they issue, in order.  `Date.now()` / `new Date()` are modelled by
an explicit `now : Nat` parameter, and the JSON blobs of a persisted
project are modelled in already-deserialized form.
-/

namespace VideoStore

/-- Media kind of a library entry, the `mediaType` field: video or audio. -/
inductive MediaType where
  | video
  | audio
  deriving DecidableEq, Repr

/-- Chat message author, the `role` field. -/
inductive Role where
  | user
  | assistant
  deriving DecidableEq, Repr

/-- Lifecycle status of a chat message: `pending`, `completed` or `error`. -/
inductive MsgStatus where
  | pending
  | completed
  | error
  deriving DecidableEq, Repr

/-- One media library entry (interface `MediaFile` of the store). -/
structure MediaFile where
  id : String
  filename : String
  url : String
  type : String
  mediaType : MediaType
  uploadedAt : Nat
  description : String
  isAnalyzing : Bool
  versionHistory : List String
  redoHistory : List String
  deriving DecidableEq, Repr

/-- One chat message (interface `ChatMessage` of the store).  Optional
fields of the TypeScript interface are `Option`s. -/
structure ChatMessage where
  id : String
  role : Role
  content : String
  timestamp : Nat
  status : Option MsgStatus
  videoUrl : Option String
  videoUrls : Option (List String)
  mediaType : Option MediaType
  mediaFilename : Option String
  deriving DecidableEq, Repr

/-- A `Partial<ChatMessage>` as passed to `updateMessage`: every field may
be present (it then overrides the message's field on spread) or absent. -/
structure ChatMessageUpdate where
  id : Option String
  role : Option Role
  content : Option String
  timestamp : Option Nat
  status : Option MsgStatus
  videoUrl : Option String
  videoUrls : Option (List String)
  mediaType : Option MediaType
  mediaFilename : Option String
  deriving DecidableEq, Repr

/-- The update with no field present; mirrors spreading an empty object. -/
def ChatMessageUpdate.none : ChatMessageUpdate :=
  ⟨Option.none, Option.none, Option.none, Option.none, Option.none,
   Option.none, Option.none, Option.none, Option.none⟩

/-- Spread semantics of `{ ...msg, ...updates }`: a field present in the
update overrides, an absent field keeps the message's value. -/
def ChatMessage.applyUpdate (m : ChatMessage) (u : ChatMessageUpdate) : ChatMessage where
  id := u.id.getD m.id
  role := u.role.getD m.role
  content := u.content.getD m.content
  timestamp := u.timestamp.getD m.timestamp
  status := match u.status with
    | some st => some st
    | none => m.status
  videoUrl := match u.videoUrl with
    | some v => some v
    | none => m.videoUrl
  videoUrls := match u.videoUrls with
    | some v => some v
    | none => m.videoUrls
  mediaType := match u.mediaType with
    | some v => some v
    | none => m.mediaType
  mediaFilename := match u.mediaFilename with
    | some v => some v
    | none => m.mediaFilename

/-- Shared playback state; `currentTime` (a JS number of seconds) is
modelled as a rational. -/
structure PlaybackState where
  isPlaying : Bool
  currentTime : ℚ
  deriving DecidableEq, Repr

/-- A saved video row (interface `SavedVideo`). -/
structure SavedVideo where
  id : Nat
  user_id : Nat
  filename : String
  url : String
  thumbnail : Option String
  description : Option String
  created_at : String
  deriving DecidableEq, Repr

/-- A persisted project (interface `Project`).  The two JSON blob fields
`media_bin` and `chat_history` are modelled in deserialized form (the
source stores them as JSON strings and parses them on load). -/
structure Project where
  id : Nat
  name : String
  user_id : Nat
  created_at : String
  updated_at : String
  media_bin : List MediaFile
  chat_history : List ChatMessage
  deriving DecidableEq, Repr

/-- Authentication status of the session. -/
inductive AuthStatus where
  | loading
  | authenticated
  | unauthenticated
  deriving DecidableEq, Repr

/-- The whole Zustand store state (interface `AppState`).  The `user`
object `{ email }` is modelled by its email string. -/
structure AppState where
  mediaBin : List MediaFile
  activeVideoId : Option String
  activeAudioId : Option String
  isUploading : Bool
  uploadProgress : Nat
  playbackState : PlaybackState
  messages : List ChatMessage
  currentThreadId : Option String
  isThinking : Bool
  authStatus : AuthStatus
  isAuthenticated : Bool
  user : Option String
  token : Option String
  currentProject : Option Project
  projects : List Project
  savedVideos : List SavedVideo
  isProjectLoading : Bool
  deriving DecidableEq, Repr

/-- A network request issued by a store action, in issue order.
`putProject` carries the serialized snapshot of the PUT body;
`getProject` is the GET that fetches a project. -/
inductive NetRequest where
  | putProject (id : Nat) (mediaBinSnapshot : List MediaFile) (chatSnapshot : List ChatMessage)
  | getProject (id : Nat)
  deriving DecidableEq, Repr

/-- Outcome of a `fetch` as the store observes it: an ok response carrying
the parsed project, a non-ok response, or a thrown network error. -/
inductive FetchResult (α : Type) where
  | ok (value : α)
  | notOk
  | netError
  deriving DecidableEq, Repr

/-- The draft passed to `addMediaFile`: a `MediaFile` minus the two history
fields (`Omit<MediaFile, 'versionHistory' | 'redoHistory'>`). -/
structure MediaDraft where
  id : String
  filename : String
  url : String
  type : String
  mediaType : MediaType
  uploadedAt : Nat
  description : String
  isAnalyzing : Bool
  deriving DecidableEq, Repr

/-- The stored entry built by `addMediaFile`: history starts with the
draft's url, redo history starts empty. -/
def MediaDraft.toFile (d : MediaDraft) : MediaFile where
  id := d.id
  filename := d.filename
  url := d.url
  type := d.type
  mediaType := d.mediaType
  uploadedAt := d.uploadedAt
  description := d.description
  isAnalyzing := d.isAnalyzing
  versionHistory := [d.url]
  redoHistory := []

/-- Action `addMediaFile`: appends the new entry and unconditionally makes
it the active video selection (the source sets `activeVideoId` whatever the
draft's `mediaType` is, and never touches `activeAudioId`). -/
def addMediaFile (d : MediaDraft) (s : AppState) : AppState :=
  { s with
      mediaBin := s.mediaBin ++ [d.toFile]
      activeVideoId := some d.id }

/-- The informational message appended by a successful revert. -/
def revertMessage (now : Nat) : ChatMessage :=
  ⟨"revert-" ++ toString now, .assistant,
   "↩️ Video has been reverted to the previous version.", now,
   some .completed, none, none, none, none⟩

/-- The informational message appended by a successful redo. -/
def redoMessage (now : Nat) : ChatMessage :=
  ⟨"redo-" ++ toString now, .assistant,
   "↪️ Redo successful. Restored the reverted version.", now,
   some .completed, none, none, none, none⟩

/-- Action `revertToPreviousVersion`: no-op when the entry is missing or
its history has a single element; otherwise the last URL is popped off
`versionHistory` and pushed onto the front of `redoHistory`, and an
informational message is appended.  The source computes
`previousUrl = newHistory[newHistory.length - 1]` but never uses it: the
entry's `url` field is left unchanged. -/
def revertToPreviousVersion (videoId : String) (now : Nat) (s : AppState) : AppState :=
  match s.mediaBin.find? (fun f => f.id == videoId) with
  | none => s
  | some file =>
    if file.versionHistory.length ≤ 1 then s
    else
      let lastVersion := file.versionHistory.getLastD ""
      let newHistory := file.versionHistory.dropLast
      let newRedoHistory := lastVersion :: file.redoHistory
      { s with
          mediaBin := s.mediaBin.map fun f =>
            if f.id == videoId then
              { f with versionHistory := newHistory, redoHistory := newRedoHistory }
            else f
          messages := s.messages ++ [revertMessage now] }

/-- Action `redoLastAction`: no-op when the entry is missing or its redo
history is empty; otherwise the first URL is popped off `redoHistory` and
pushed onto `versionHistory`, and an informational message is appended.
As with revert, the entry's `url` field is left unchanged. -/
def redoLastAction (videoId : String) (now : Nat) (s : AppState) : AppState :=
  match s.mediaBin.find? (fun f => f.id == videoId) with
  | none => s
  | some file =>
    match file.redoHistory with
    | [] => s
    | nextVersion :: rest =>
      let newHistory := file.versionHistory ++ [nextVersion]
      { s with
          mediaBin := s.mediaBin.map fun f =>
            if f.id == videoId then
              { f with versionHistory := newHistory, redoHistory := rest }
            else f
          messages := s.messages ++ [redoMessage now] }

/-- Action `saveCurrentProject`: returns early (no request) when no project
is current or no user is logged in; otherwise issues one PUT with the
serialized media bin and chat history.  The store state is not mutated. -/
def saveCurrentProject (s : AppState) : List NetRequest :=
  match s.currentProject, s.user with
  | some p, some _ => [.putProject p.id s.mediaBin s.messages]
  | _, _ => []

/-- Action `deleteMediaFile`: filters the entry out; when the deleted id
was the active video selection the new selection is the first remaining
entry of the bin, whatever its kind (`updatedFiles[0]?.id ?? null`);
`activeAudioId` is never adjusted.  Afterwards the deletion is persisted
via `saveCurrentProject` on the post-deletion state. -/
def deleteMediaFile (id : String) (s : AppState) : AppState × List NetRequest :=
  let updatedFiles := s.mediaBin.filter fun f => f.id != id
  let newActiveId := if s.activeVideoId = some id then updatedFiles.head?.map MediaFile.id
    else s.activeVideoId
  let s' := { s with mediaBin := updatedFiles, activeVideoId := newActiveId }
  (s', saveCurrentProject s')

/-- Action `addMessage`: a message whose id starts with `ai-desc-` and is
already present is dropped (duplicate-analysis guard); every other message
is appended, whether or not its id already occurs.  The JavaScript
`id.startsWith('ai-desc-')` is embedded as the prefix test on the strings'
character lists. -/
def addMessage (m : ChatMessage) (s : AppState) : AppState :=
  if "ai-desc-".data.isPrefixOf m.id.data && s.messages.any (fun x => x.id == m.id) then s
  else { s with messages := s.messages ++ [m] }

/-- Action `updateMessage`: spreads the partial update over the message
with the given id; messages with other ids are untouched. -/
def updateMessage (id : String) (u : ChatMessageUpdate) (s : AppState) : AppState :=
  { s with
      messages := s.messages.map fun m => if m.id == id then m.applyUpdate u else m }

/-- Action `handleSuccessfulEdit` (current revision): patches the targeted
assistant message with the final content, completed status, fresh
timestamp and the result URL.  The media bin is no longer touched (the
source comment: the user must promote the result explicitly). -/
def handleSuccessfulEdit (videoId newUrl messageId messageContent : String) (now : Nat)
    (s : AppState) : AppState :=
  let _ := videoId
  { s with
      messages := s.messages.map fun m =>
        if m.id == messageId then
          { m with
              content := messageContent
              status := some .completed
              timestamp := now
              videoUrl := some newUrl }
        else m }

/-- Action `handleSuccessfulEdit` in the earlier store revision: besides
patching the message it appends the new URL to the targeted entry's
`versionHistory`, clears its `redoHistory` and sets its `url` — this is
the `appendVersion` operation of the specification. -/
def handleSuccessfulEditV1 (videoId newUrl messageId messageContent : String) (now : Nat)
    (s : AppState) : AppState :=
  { s with
      mediaBin := s.mediaBin.map fun f =>
        if f.id == videoId then
          { f with
              url := newUrl
              versionHistory := f.versionHistory ++ [newUrl]
              redoHistory := [] }
        else f
      messages := s.messages.map fun m =>
        if m.id == messageId then
          { m with
              content := messageContent
              status := some .completed
              timestamp := now
              videoUrl := some newUrl }
        else m }

/-- Action `addEditedMediaToLibrary`: promotion of a chat-result artifact.
A fresh entry (history initialized to the single url) is appended to the
media bin; nothing else in the state is touched and no network request is
issued. -/
def addEditedMediaToLibrary (url filename : String) (mt : MediaType) (now : Nat)
    (s : AppState) : AppState × List NetRequest :=
  let newFile : MediaFile :=
    { id := "edited-" ++ toString now
      filename := filename
      url := url
      type := match mt with
        | .video => "video/mp4"
        | .audio => "audio/mp3"
      mediaType := mt
      uploadedAt := now
      description := "Edited " ++ (match mt with
        | .video => "video"
        | .audio => "audio")
      isAnalyzing := false
      versionHistory := [url]
      redoHistory := [] }
  ({ s with mediaBin := s.mediaBin ++ [newFile] }, [])

/-- Action `clearChat`: empties the message list and thread id, then
persists via `saveCurrentProject` on the cleared state. -/
def clearChat (s : AppState) : AppState × List NetRequest :=
  let s' := { s with messages := ([] : List ChatMessage), currentThreadId := Option.none }
  (s', saveCurrentProject s')

/-- Action `renameMediaFile`: in-place filename update of the matching
entry. -/
def renameMediaFile (id newFilename : String) (s : AppState) : AppState :=
  { s with
      mediaBin := s.mediaBin.map fun f =>
        if f.id == id then { f with filename := newFilename } else f }

/-- Action `updateMediaFileDescription`: in-place description update of
the matching entry. -/
def updateMediaFileDescription (id description : String) (s : AppState) : AppState :=
  { s with
      mediaBin := s.mediaBin.map fun f =>
        if f.id == id then { f with description := description } else f }

/-- Action `setActiveVideoVersion`: sets only the `url` of the matching
entry (neither history stack is touched) and resets playback. -/
def setActiveVideoVersion (videoId url : String) (s : AppState) : AppState :=
  { s with
      mediaBin := s.mediaBin.map fun f =>
        if f.id == videoId then { f with url := url } else f
      playbackState := ⟨false, 0⟩ }

/-- The welcome message installed when a loaded project has an empty chat
history (and on logout). -/
def welcomeMessage (now : Nat) : ChatMessage :=
  ⟨"init", .assistant, "Welcome! Upload a video and let's start editing together.", now,
   none, none, none, none, none⟩

/-- Action `switchProject`: returns immediately when no user is logged in;
otherwise first runs `saveCurrentProject` (whose request, if any, is
issued and awaited before anything else), then issues the GET for the new
project.  On an ok response the fetched project is installed: media bin
and messages are replaced wholesale by the deserialized snapshot, with a
single welcome message substituted when the snapshot's chat history is
empty, and both active selections are reset.  On a non-ok response the
loading flag is left set (the source only clears it on ok or on a thrown
error). -/
def switchProject (projectId : Nat) (response : FetchResult Project) (now : Nat)
    (s : AppState) : AppState × List NetRequest :=
  match s.user with
  | none => (s, [])
  | some _ =>
    let saveReqs := saveCurrentProject s
    let reqs := saveReqs ++ [.getProject projectId]
    let s₁ := { s with isProjectLoading := true }
    match response with
    | .ok project =>
        ({ s₁ with
            currentProject := some project
            mediaBin := project.media_bin
            messages := if project.chat_history.length > 0 then project.chat_history
              else [welcomeMessage now]
            activeVideoId := none
            activeAudioId := none
            isProjectLoading := false }, reqs)
    | .notOk => (s₁, reqs)
    | .netError => ({ s₁ with isProjectLoading := false }, reqs)

/-- The user-facing apology installed by the edit command's failure path. -/
def apologyText : String := "Sorry, I encountered an error. Please try again."

/-- Failure path of `handleSend` (the edit command component): the pending
assistant placeholder is patched to an error status with the apology
text and a fresh timestamp.  No other part of the state is involved. -/
def handleSendFailure (assistantMessageId : String) (now : Nat) (s : AppState) : AppState :=
  updateMessage assistantMessageId
    { ChatMessageUpdate.none with
        content := some apologyText
        status := some .error
        timestamp := some now } s

/-! Concrete states used by the evaluations and witnesses below. -/

/-- Empty base state, the store's initial value. -/
def emptyState : AppState where
  mediaBin := []
  activeVideoId := none
  activeAudioId := none
  isUploading := false
  uploadProgress := 0
  playbackState := ⟨false, 0⟩
  messages := []
  currentThreadId := none
  isThinking := false
  authStatus := .loading
  isAuthenticated := false
  user := none
  token := none
  currentProject := none
  projects := []
  savedVideos := []
  isProjectLoading := false

/-- A video entry with one accepted edit in its history. -/
def fileA : MediaFile :=
  ⟨"v1", "clip.mp4", "a1", "video/mp4", .video, 0, "", false, ["a0", "a1"], []⟩

/-- An audio entry with one reverted version waiting in the redo stack. -/
def fileB : MediaFile :=
  ⟨"v2", "sound.mp3", "b0", "audio/mp3", .audio, 0, "", false, ["b0"], ["b1"]⟩

/-- C1: the claim asserts that an entry's `url` equals the last element of
`versionHistory` immediately after revert and after redo.  Evaluating the
code: after `revertToPreviousVersion` the history is `["a0"]` but `url` is
still `"a1"` (the popped version) — the source computes the new last
element into `previousUrl` and never assigns it — and after
`redoLastAction` on an entry with history `["b0"]` and redo stack `["b1"]`
the history is `["b0", "b1"]` but `url` is still `"b0"`.  The claim
describes the evident intent (an earlier store revision did update the
displayed URL on both paths); the current code dropped the assignment. -/
theorem revert_leaves_url_stale :
    (((revertToPreviousVersion "v1" 7 { emptyState with mediaBin := [fileA] }).mediaBin.map
        fun f => (f.url, f.versionHistory, f.redoHistory)) = [("a1", ["a0"], ["a1"])])
    ∧ (((redoLastAction "v2" 9 { emptyState with mediaBin := [fileB] }).mediaBin.map
        fun f => (f.url, f.versionHistory, f.redoHistory)) = [("b0", ["b0", "b1"], [])]) := by
  decide

/-- An audio draft as uploaded through the audio tab. -/
def audioDraft : MediaDraft :=
  ⟨"aud1", "song.mp3", "u0", "audio/mp3", .audio, 0, "", false⟩

/-- C6 counterexample: adding an AUDIO entry makes it the active VIDEO
selection (`addMediaFile` sets `activeVideoId` unconditionally) and leaves
the active audio selection untouched, so an added audio entry does not
become the active audio selection as claimed. -/
theorem addMediaFile_audio_sets_activeVideoId :
    (addMediaFile audioDraft emptyState).activeVideoId = some "aud1"
    ∧ (addMediaFile audioDraft emptyState).activeAudioId = none
    ∧ audioDraft.mediaType = .audio := by
  decide

/-- C6 (amended): `addMediaFile` appends a single entry initialized with
`versionHistory = [draft.url]` and `redoHistory = []`, and the entry
unconditionally becomes the active video selection whatever its kind;
`activeAudioId` is left unchanged. -/
theorem addMediaFile_behavior (d : MediaDraft) (s : AppState) :
    ∃ nf : MediaFile,
      (addMediaFile d s).mediaBin = s.mediaBin ++ [nf]
      ∧ nf.id = d.id
      ∧ nf.url = d.url
      ∧ nf.mediaType = d.mediaType
      ∧ nf.versionHistory = [d.url]
      ∧ nf.redoHistory = []
      ∧ (addMediaFile d s).activeVideoId = some d.id
      ∧ (addMediaFile d s).activeAudioId = s.activeAudioId :=
  ⟨d.toFile, rfl, rfl, rfl, rfl, rfl, rfl, rfl, rfl⟩

/-- A video entry and an audio entry used by the deletion scenario. -/
def videoA : MediaFile :=
  ⟨"vidA", "a.mp4", "ua", "video/mp4", .video, 0, "", false, ["ua"], []⟩

/-- The audio companion entry of the deletion scenario. -/
def audioB : MediaFile :=
  ⟨"audB", "b.mp3", "ub", "audio/mp3", .audio, 0, "", false, ["ub"], []⟩

/-- Two-entry state whose active video selection is the video entry. -/
def c5State : AppState :=
  { emptyState with mediaBin := [videoA, audioB], activeVideoId := some "vidA" }

/-- C5 counterexample: deleting the active video entry when the only
remaining entry is an AUDIO entry sets the active video selection to that
audio entry's id.  The claim requires the first remaining entry of the
SAME kind or null; no video remains, so it requires null. -/
theorem deleteMediaFile_cross_kind_selection :
    (deleteMediaFile "vidA" c5State).1.activeVideoId = some "audB"
    ∧ (∀ f ∈ (deleteMediaFile "vidA" c5State).1.mediaBin, f.mediaType = .audio) := by
  decide

/-- A plain (non-analysis) user message used twice in the duplicate test. -/
def plainMsg : ChatMessage :=
  ⟨"dup", .user, "hi", 0, none, none, none, none, none⟩

/-- C7 counterexample: `addMessage` only suppresses duplicates whose id
starts with `ai-desc-`.  Appending the same plain message twice yields two
entries with the same id, so append with a matching id is not a no-op in
general. -/
theorem addMessage_duplicates_plain_id :
    ((addMessage plainMsg (addMessage plainMsg emptyState)).messages.filter
        fun m => m.id == "dup").length = 2 := by
  decide

/-- A pending assistant message created at timestamp 1. -/
def msgT : ChatMessage :=
  ⟨"m1", .assistant, "c", 1, some .pending, none, none, none, none⟩

/-- An update that carries a new timestamp, as the edit command's callers
actually pass (`timestamp: new Date()`). -/
def tsUpd : ChatMessageUpdate :=
  { ChatMessageUpdate.none with timestamp := some 99 }

/-- C8 counterexample: `updateMessage` spreads the update over the
message, so an update containing `timestamp` replaces the timestamp of
creation (here 1 becomes 99), contradicting the claim that patches can
never change it; `role` can be replaced the same way. -/
theorem updateMessage_overrides_timestamp :
    ((updateMessage "m1" tsUpd { emptyState with messages := [msgT] }).messages.map
        fun m => (m.id, m.timestamp)) = [("m1", 99)] := by
  decide

/-- C10: `addEditedMediaToLibrary` appends exactly one fresh entry, whose
history is initialized to the single result url, at the end of the media
bin; both active selections, the playback state, the message list, the
project fields and everything else are unchanged, and no network request
(in particular no save) is issued. -/
theorem addEditedMediaToLibrary_frame (url filename : String) (mt : MediaType) (now : Nat)
    (s : AppState) :
    ∃ nf : MediaFile,
      (addEditedMediaToLibrary url filename mt now s).1.mediaBin = s.mediaBin ++ [nf]
      ∧ nf.url = url
      ∧ nf.filename = filename
      ∧ nf.mediaType = mt
      ∧ nf.versionHistory = [url]
      ∧ nf.redoHistory = []
      ∧ (addEditedMediaToLibrary url filename mt now s).1.activeVideoId = s.activeVideoId
      ∧ (addEditedMediaToLibrary url filename mt now s).1.activeAudioId = s.activeAudioId
      ∧ (addEditedMediaToLibrary url filename mt now s).1.playbackState = s.playbackState
      ∧ (addEditedMediaToLibrary url filename mt now s).1.messages = s.messages
      ∧ (addEditedMediaToLibrary url filename mt now s).1.currentProject = s.currentProject
      ∧ (addEditedMediaToLibrary url filename mt now s).1.projects = s.projects
      ∧ (addEditedMediaToLibrary url filename mt now s).1.savedVideos = s.savedVideos
      ∧ (addEditedMediaToLibrary url filename mt now s).1.user = s.user
      ∧ (addEditedMediaToLibrary url filename mt now s).1.token = s.token
      ∧ (addEditedMediaToLibrary url filename mt now s).1.currentThreadId = s.currentThreadId
      ∧ (addEditedMediaToLibrary url filename mt now s).1.isThinking = s.isThinking
      ∧ (addEditedMediaToLibrary url filename mt now s).1.isUploading = s.isUploading
      ∧ (addEditedMediaToLibrary url filename mt now s).1.uploadProgress = s.uploadProgress
      ∧ (addEditedMediaToLibrary url filename mt now s).1.isProjectLoading = s.isProjectLoading
      ∧ (addEditedMediaToLibrary url filename mt now s).2 = [] :=
  ⟨_, rfl, rfl, rfl, rfl, rfl, rfl, rfl, rfl, rfl, rfl, rfl, rfl, rfl, rfl, rfl, rfl, rfl,
   rfl, rfl, rfl, rfl⟩

/-! Helper lemmas about the id-guarded map updates the store uses. -/

lemma mem_map_of_id_ne_msg (upd : ChatMessage → ChatMessage) {l : List ChatMessage}
    {i : String} {m : ChatMessage} (hm : m ∈ l) (h : ¬ m.id = i) :
    m ∈ l.map fun x => if x.id == i then upd x else x := by
  have hx := List.mem_map_of_mem (fun x => if x.id == i then upd x else x) hm
  simpa [h] using hx

lemma mem_map_of_id_eq_msg (upd : ChatMessage → ChatMessage) {l : List ChatMessage}
    {i : String} {m : ChatMessage} (hm : m ∈ l) (h : m.id = i) :
    upd m ∈ l.map fun x => if x.id == i then upd x else x := by
  have hx := List.mem_map_of_mem (fun x => if x.id == i then upd x else x) hm
  simpa [h] using hx

lemma mem_map_of_id_ne_file (upd : MediaFile → MediaFile) {l : List MediaFile}
    {i : String} {m : MediaFile} (hm : m ∈ l) (h : ¬ m.id = i) :
    m ∈ l.map fun x => if x.id == i then upd x else x := by
  have hx := List.mem_map_of_mem (fun x => if x.id == i then upd x else x) hm
  simpa [h] using hx

lemma mem_map_of_id_eq_file (upd : MediaFile → MediaFile) {l : List MediaFile}
    {i : String} {m : MediaFile} (hm : m ∈ l) (h : m.id = i) :
    upd m ∈ l.map fun x => if x.id == i then upd x else x := by
  have hx := List.mem_map_of_mem (fun x => if x.id == i then upd x else x) hm
  simpa [h] using hx

/-- C2: with a user logged in and a project current, `switchProject`
issues exactly two requests, the save (PUT) of the outgoing project's
current in-memory snapshot strictly before the load (GET) of the incoming
project, and on an ok response installs the fetched project: the media bin
and the message list are replaced wholesale by the deserialized snapshot,
with a single welcome message substituted when the snapshot's chat history
is empty. -/
theorem switchProject_saves_before_load (s : AppState) (projectId : Nat) (proj : Project)
    (now : Nat) (u : String) (p : Project)
    (hu : s.user = some u) (hp : s.currentProject = some p) :
    ((switchProject projectId (.ok proj) now s).2
        = [NetRequest.putProject p.id s.mediaBin s.messages, NetRequest.getProject projectId])
    ∧ (switchProject projectId (.ok proj) now s).1.mediaBin = proj.media_bin
    ∧ (switchProject projectId (.ok proj) now s).1.currentProject = some proj
    ∧ (proj.chat_history ≠ [] →
        (switchProject projectId (.ok proj) now s).1.messages = proj.chat_history)
    ∧ (proj.chat_history = [] →
        (switchProject projectId (.ok proj) now s).1.messages = [welcomeMessage now]) := by
  simp only [switchProject, saveCurrentProject, hu, hp]
  refine ⟨rfl, trivial, trivial, fun h => ?_, fun h => ?_⟩
  · rw [if_pos (List.length_pos.mpr h)]
  · simp [h]

/-- C4: resolving an edit request touches only the targeted chat message.
On success `handleSuccessfulEdit` leaves the media bin unchanged (no
version is appended; promotion is a separate user action), keeps every
other message, and patches the target with the final content, completed
status and the result URL.  On failure `handleSendFailure` leaves the
media bin unchanged, keeps every other message, and moves the target to
error status with the user-facing apology text. -/
theorem resolveEdit_touches_only_target_message (s : AppState)
    (videoId newUrl messageId messageContent failId : String) (now now₂ : Nat) :
    ((handleSuccessfulEdit videoId newUrl messageId messageContent now s).mediaBin = s.mediaBin)
    ∧ (∀ m ∈ s.messages, m.id ≠ messageId →
        m ∈ (handleSuccessfulEdit videoId newUrl messageId messageContent now s).messages)
    ∧ (∀ m ∈ s.messages, m.id = messageId →
        ∃ m' ∈ (handleSuccessfulEdit videoId newUrl messageId messageContent now s).messages,
          m'.id = messageId ∧ m'.role = m.role ∧ m'.content = messageContent
          ∧ m'.status = some MsgStatus.completed ∧ m'.videoUrl = some newUrl)
    ∧ ((handleSendFailure failId now₂ s).mediaBin = s.mediaBin)
    ∧ (∀ m ∈ s.messages, m.id ≠ failId → m ∈ (handleSendFailure failId now₂ s).messages)
    ∧ (∀ m ∈ s.messages, m.id = failId →
        ∃ m' ∈ (handleSendFailure failId now₂ s).messages,
          m'.id = failId ∧ m'.role = m.role ∧ m'.content = apologyText
          ∧ m'.status = some MsgStatus.error ∧ m'.timestamp = now₂) := by
  refine ⟨rfl, ?_, ?_, rfl, ?_, ?_⟩
  · intro m hm hne
    exact mem_map_of_id_ne_msg _ hm hne
  · intro m hm hmid
    exact ⟨_, mem_map_of_id_eq_msg
      (fun x => { x with content := messageContent, status := some MsgStatus.completed,
                         timestamp := now, videoUrl := some newUrl }) hm hmid,
      hmid, rfl, rfl, rfl, rfl⟩
  · intro m hm hne
    exact mem_map_of_id_ne_msg _ hm hne
  · intro m hm hmid
    exact ⟨_, mem_map_of_id_eq_msg (fun x => x.applyUpdate
      { ChatMessageUpdate.none with
          content := some apologyText
          status := some MsgStatus.error
          timestamp := some now₂ }) hm hmid,
      hmid, rfl, rfl, rfl, rfl⟩

/-- C5 (amended): `deleteMediaFile` filters out the entry with the given
id; when that entry was the active video selection the new selection is
the first remaining entry of the bin regardless of kind (null only when
the bin became empty); `activeAudioId` is never adjusted; and the deletion
issues a save of the post-deletion snapshot. -/
theorem deleteMediaFile_behavior (id : String) (s : AppState) (p : Project) (u : String)
    (hp : s.currentProject = some p) (hu : s.user = some u) :
    ((deleteMediaFile id s).1.mediaBin = s.mediaBin.filter fun f => f.id != id)
    ∧ (s.activeVideoId = some id →
        (deleteMediaFile id s).1.activeVideoId
          = ((s.mediaBin.filter fun f => f.id != id).head?.map MediaFile.id))
    ∧ (s.activeVideoId ≠ some id →
        (deleteMediaFile id s).1.activeVideoId = s.activeVideoId)
    ∧ ((deleteMediaFile id s).1.activeAudioId = s.activeAudioId)
    ∧ ((deleteMediaFile id s).2
        = [NetRequest.putProject p.id (s.mediaBin.filter fun f => f.id != id) s.messages]) := by
  refine ⟨rfl, fun h => ?_, fun h => ?_, rfl, ?_⟩
  · simp [deleteMediaFile, h]
  · simp [deleteMediaFile, h]
  · simp [deleteMediaFile, saveCurrentProject, hp, hu]

/-- C7 (amended): the duplicate-injection guard of `addMessage` applies
exactly to analysis messages, those whose id starts with `ai-desc-`: for
such a message, appending when a message with the same id already exists
is a no-op, and injecting it twice from a state without that id leaves
exactly one entry with that id.  (Plain messages are appended
unconditionally, see the counterexample.) -/
theorem addMessage_dedup_analysis_only (m : ChatMessage) (s : AppState)
    (hpre : "ai-desc-".data.isPrefixOf m.id.data = true) :
    ((∃ m' ∈ s.messages, m'.id = m.id) → addMessage m s = s)
    ∧ ((∀ m' ∈ s.messages, m'.id ≠ m.id) →
        ((addMessage m (addMessage m s)).messages.filter fun x => x.id == m.id) = [m]) := by
  constructor
  · rintro ⟨m', hm', hid⟩
    have hany : s.messages.any (fun x => x.id == m.id) = true :=
      List.any_eq_true.mpr ⟨m', hm', by simp [hid]⟩
    simp [addMessage, hpre, hany]
  · intro hno
    have hany : s.messages.any (fun x => x.id == m.id) = false := by
      rw [List.any_eq_false]
      intro x hx
      simp [hno x hx]
    have h1 : addMessage m s = { s with messages := s.messages ++ [m] } := by
      simp [addMessage, hany]
    have hany2 : (s.messages ++ [m]).any (fun x => x.id == m.id) = true :=
      List.any_eq_true.mpr ⟨m, by simp, by simp⟩
    have h2 : addMessage m { s with messages := s.messages ++ [m] }
        = { s with messages := s.messages ++ [m] } := by
      simp [addMessage, hpre, hany2]
    rw [h1, h2]
    have hnil : s.messages.filter (fun x => x.id == m.id) = [] := by
      rw [List.filter_eq_nil_iff]
      intro a ha
      simp [hno a ha]
    simp [List.filter_append, hnil]

/-- C8 (amended): `updateMessage` preserves the number and positions of
messages, is a no-op when no message carries the id, keeps every message
with a different id, and leaves the media bin alone; the targeted
message's `role` and `timestamp` are preserved exactly when the partial
update does not include those fields — an update that does include them
replaces them (see the counterexample). -/
theorem updateMessage_behavior (id : String) (u : ChatMessageUpdate) (s : AppState) :
    ((updateMessage id u s).messages.length = s.messages.length)
    ∧ ((∀ m ∈ s.messages, m.id ≠ id) → updateMessage id u s = s)
    ∧ (∀ m ∈ s.messages, m.id ≠ id → m ∈ (updateMessage id u s).messages)
    ∧ (u.role = none → u.timestamp = none →
        ∀ n : Nat,
          ((updateMessage id u s).messages[n]?.map ChatMessage.role)
            = (s.messages[n]?.map ChatMessage.role)
          ∧ ((updateMessage id u s).messages[n]?.map ChatMessage.timestamp)
            = (s.messages[n]?.map ChatMessage.timestamp))
    ∧ ((updateMessage id u s).mediaBin = s.mediaBin) := by
  refine ⟨?_, ?_, ?_, ?_, rfl⟩
  · simp [updateMessage]
  · intro hno
    have hmap : s.messages.map (fun m => if m.id == id then m.applyUpdate u else m)
        = s.messages := by
      calc s.messages.map (fun m => if m.id == id then m.applyUpdate u else m)
          = s.messages.map (fun m => m) :=
            List.map_congr_left fun a ha => by simp [hno a ha]
        _ = s.messages := List.map_id' s.messages
    rw [updateMessage, hmap]
  · intro m hm hne
    exact mem_map_of_id_ne_msg _ hm hne
  · intro hr ht n
    have hmsg : (updateMessage id u s).messages
        = s.messages.map (fun m => if m.id == id then m.applyUpdate u else m) := rfl
    constructor <;>
    · rw [hmsg, List.getElem?_map]
      cases hn : s.messages[n]? with
      | none => rfl
      | some m =>
        simp [ChatMessage.applyUpdate, hr, ht]
        split <;> rfl

/-- Dropping the last element and re-appending it restores a non-empty
list; used for the revert-then-redo round trip. -/
lemma dropLast_append_getLastD {α : Type} (l : List α) (d : α) (h : l ≠ []) :
    l.dropLast ++ [l.getLastD d] = l := by
  induction l generalizing d with
  | nil => exact absurd rfl h
  | cons a t ih =>
    cases t with
    | nil => rfl
    | cons b t' =>
      show a :: ((b :: t').dropLast ++ [(b :: t').getLastD a]) = a :: b :: t'
      exact congrArg (a :: ·) (ih a (by simp))

/-- When the bin's ids are duplicate-free, `find?` on an id returns the
member carrying that id. -/
lemma find?_eq_some_of_nodup (l : List MediaFile) (i : String) (f : MediaFile)
    (hN : (l.map MediaFile.id).Nodup) (hf : f ∈ l) (hid : f.id = i) :
    l.find? (fun g => g.id == i) = some f := by
  cases hfind : l.find? (fun g => g.id == i) with
  | none =>
    have hx := List.find?_eq_none.mp hfind f hf
    simp [hid] at hx
  | some g =>
    have hmem := List.mem_of_find?_eq_some hfind
    have hgid : g.id = i := by simpa using List.find?_some hfind
    have hge : g = f := List.inj_on_of_nodup_map hN hmem hf (by rw [hgid, hid])
    rw [hge]

/-- C9: revert followed by redo on the same entry, with no intervening
edit, restores every entry's `versionHistory` and `redoHistory` exactly
(stated as equality of the bin's projections to id and the two stacks),
provided the entry has more than one version and the bin's ids are
duplicate-free. -/
theorem revert_redo_roundtrip (s : AppState) (i : String) (now₁ now₂ : Nat) (f : MediaFile)
    (hN : (s.mediaBin.map MediaFile.id).Nodup) (hf : f ∈ s.mediaBin) (hid : f.id = i)
    (hlen : 1 < f.versionHistory.length) :
    ((redoLastAction i now₂ (revertToPreviousVersion i now₁ s)).mediaBin.map
        fun g => (g.id, g.versionHistory, g.redoHistory))
      = s.mediaBin.map fun g => (g.id, g.versionHistory, g.redoHistory) := by
  have hbeq : (f.id == i) = true := by simp [hid]
  have hfind₁ : s.mediaBin.find? (fun g => g.id == i) = some f :=
    find?_eq_some_of_nodup s.mediaBin i f hN hf hid
  have hvne : f.versionHistory ≠ [] := by
    intro hnil
    rw [hnil] at hlen
    simp at hlen
  have hrevBin : (revertToPreviousVersion i now₁ s).mediaBin
      = s.mediaBin.map fun g =>
          if g.id == i then
            { g with versionHistory := f.versionHistory.dropLast,
                     redoHistory := f.versionHistory.getLastD "" :: f.redoHistory }
          else g := by
    simp only [revertToPreviousVersion, hfind₁]
    rw [if_neg (by omega)]
  have hf₁mem : ({ f with
          versionHistory := f.versionHistory.dropLast,
          redoHistory := f.versionHistory.getLastD "" :: f.redoHistory } : MediaFile)
      ∈ (revertToPreviousVersion i now₁ s).mediaBin := by
    rw [hrevBin]
    exact mem_map_of_id_eq_file (fun x =>
      { x with versionHistory := f.versionHistory.dropLast,
               redoHistory := f.versionHistory.getLastD "" :: f.redoHistory }) hf hid
  have hN₁ : ((revertToPreviousVersion i now₁ s).mediaBin.map MediaFile.id).Nodup := by
    rw [hrevBin, List.map_map]
    have hco : (s.mediaBin.map (MediaFile.id ∘ fun g =>
        if g.id == i then
          { g with versionHistory := f.versionHistory.dropLast,
                   redoHistory := f.versionHistory.getLastD "" :: f.redoHistory }
        else g))
        = s.mediaBin.map MediaFile.id :=
      List.map_congr_left fun g _ => by
        by_cases hgi : (g.id == i) = true <;> simp [Function.comp, hgi]
    rw [hco]
    exact hN
  have hfind₂ : (revertToPreviousVersion i now₁ s).mediaBin.find? (fun g => g.id == i)
      = some { f with versionHistory := f.versionHistory.dropLast,
                      redoHistory := f.versionHistory.getLastD "" :: f.redoHistory } :=
    find?_eq_some_of_nodup _ i _ hN₁ hf₁mem hid
  have hredoBin : (redoLastAction i now₂ (revertToPreviousVersion i now₁ s)).mediaBin
      = (revertToPreviousVersion i now₁ s).mediaBin.map fun g =>
          if g.id == i then
            { g with versionHistory := f.versionHistory.dropLast
                        ++ [f.versionHistory.getLastD ""],
                     redoHistory := f.redoHistory }
          else g := by
    simp only [redoLastAction, hfind₂]
  rw [hredoBin, hrevBin, List.map_map, List.map_map]
  refine List.map_congr_left fun g hg => ?_
  by_cases hgi : (g.id == i) = true
  · have hgid : g.id = i := by simpa using hgi
    have hge : g = f := List.inj_on_of_nodup_map hN hg hf (by rw [hgid, hid])
    subst hge
    simp [Function.comp, hbeq]
    simpa using dropLast_append_getLastD _ "" hvne
  · simp [Function.comp, hgi]

/-- C3: the earlier-revision `handleSuccessfulEdit` (the specification's
`appendVersion`) pushes the accepted URL, sets `url`, and leaves the
target's `redoHistory` empty; and it is the only library operation that
discards redo entries.  Among all the other per-entry operations, revert
only grows `redoHistory`, redo only transfers its head onto
`versionHistory`, metadata/preview updates and the current message-only
edit resolution leave both stacks untouched, additions preserve existing
entries, and a surviving entry of a deletion is an unchanged member. -/
theorem appendVersion_sole_redo_discard (s : AppState)
    (i u mid c fn dsc pv : String) (now : Nat) (d : MediaDraft)
    (purl pfname : String) (pmt : MediaType)
    (hN : (s.mediaBin.map MediaFile.id).Nodup) :
    (∀ f ∈ s.mediaBin, f.id = i →
        ∃ g ∈ (handleSuccessfulEditV1 i u mid c now s).mediaBin,
          g.id = i ∧ g.url = u ∧ g.versionHistory = f.versionHistory ++ [u]
          ∧ g.redoHistory = [])
    ∧ (∀ f ∈ s.mediaBin,
        ∃ g ∈ (revertToPreviousVersion i now s).mediaBin,
          g.id = f.id ∧ (g.redoHistory = f.redoHistory
            ∨ g.redoHistory = f.versionHistory.getLastD "" :: f.redoHistory))
    ∧ (∀ f ∈ s.mediaBin,
        ∃ g ∈ (redoLastAction i now s).mediaBin,
          g.id = f.id
          ∧ ((g.versionHistory = f.versionHistory ∧ g.redoHistory = f.redoHistory)
            ∨ ∃ v rest, f.redoHistory = v :: rest
                ∧ g.versionHistory = f.versionHistory ++ [v] ∧ g.redoHistory = rest))
    ∧ (∀ f ∈ s.mediaBin,
        ∃ g ∈ (renameMediaFile i fn s).mediaBin,
          g.id = f.id ∧ g.versionHistory = f.versionHistory
          ∧ g.redoHistory = f.redoHistory)
    ∧ (∀ f ∈ s.mediaBin,
        ∃ g ∈ (updateMediaFileDescription i dsc s).mediaBin,
          g.id = f.id ∧ g.versionHistory = f.versionHistory
          ∧ g.redoHistory = f.redoHistory)
    ∧ (∀ f ∈ s.mediaBin,
        ∃ g ∈ (setActiveVideoVersion i pv s).mediaBin,
          g.id = f.id ∧ g.versionHistory = f.versionHistory
          ∧ g.redoHistory = f.redoHistory)
    ∧ ((handleSuccessfulEdit i u mid c now s).mediaBin = s.mediaBin)
    ∧ (∀ f ∈ s.mediaBin, f ∈ (addMediaFile d s).mediaBin)
    ∧ (∀ f ∈ s.mediaBin, f ∈ (addEditedMediaToLibrary purl pfname pmt now s).1.mediaBin)
    ∧ (∀ g ∈ (deleteMediaFile i s).1.mediaBin, g ∈ s.mediaBin)
    ∧ ((clearChat s).1.mediaBin = s.mediaBin) := by
  refine ⟨?_, ?_, ?_, ?_, ?_, ?_, rfl, ?_, ?_, ?_, rfl⟩
  · intro f hf hfi
    exact ⟨_, mem_map_of_id_eq_file (fun x =>
        { x with url := u, versionHistory := x.versionHistory ++ [u],
                 redoHistory := [] }) hf hfi,
      hfi, rfl, rfl, rfl⟩
  · intro f hf
    cases hfind : s.mediaBin.find? (fun g => g.id == i) with
    | none =>
      have hb : revertToPreviousVersion i now s = s := by
        simp only [revertToPreviousVersion, hfind]
      rw [hb]
      exact ⟨f, hf, rfl, Or.inl rfl⟩
    | some file =>
      by_cases hl : file.versionHistory.length ≤ 1
      · have hb : revertToPreviousVersion i now s = s := by
          simp only [revertToPreviousVersion, hfind]
          rw [if_pos hl]
        rw [hb]
        exact ⟨f, hf, rfl, Or.inl rfl⟩
      · have hbin : (revertToPreviousVersion i now s).mediaBin
            = s.mediaBin.map fun g =>
                if g.id == i then
                  { g with versionHistory := file.versionHistory.dropLast,
                           redoHistory := file.versionHistory.getLastD ""
                              :: file.redoHistory }
                else g := by
          simp only [revertToPreviousVersion, hfind]
          rw [if_neg hl]
        rw [hbin]
        by_cases hfi : (f.id == i) = true
        · have hfid : f.id = i := by simpa using hfi
          have hfe : file = f := by
            have hmem := List.mem_of_find?_eq_some hfind
            have hfileid : file.id = i := by simpa using List.find?_some hfind
            exact List.inj_on_of_nodup_map hN hmem hf (by rw [hfileid, hfid])
          subst hfe
          exact ⟨_, mem_map_of_id_eq_file (fun x =>
              { x with versionHistory := file.versionHistory.dropLast,
                       redoHistory := file.versionHistory.getLastD ""
                          :: file.redoHistory }) hf hfid,
            rfl, Or.inr rfl⟩
        · have hfne : ¬ f.id = i := by simpa using hfi
          exact ⟨f, mem_map_of_id_ne_file _ hf hfne, rfl, Or.inl rfl⟩
  · intro f hf
    cases hfind : s.mediaBin.find? (fun g => g.id == i) with
    | none =>
      have hb : redoLastAction i now s = s := by
        simp only [redoLastAction, hfind]
      rw [hb]
      exact ⟨f, hf, rfl, Or.inl ⟨rfl, rfl⟩⟩
    | some file =>
      cases hrh : file.redoHistory with
      | nil =>
        have hb : redoLastAction i now s = s := by
          simp only [redoLastAction, hfind, hrh]
        rw [hb]
        exact ⟨f, hf, rfl, Or.inl ⟨rfl, rfl⟩⟩
      | cons v rest =>
        have hbin : (redoLastAction i now s).mediaBin
            = s.mediaBin.map fun g =>
                if g.id == i then
                  { g with versionHistory := file.versionHistory ++ [v],
                           redoHistory := rest }
                else g := by
          simp only [redoLastAction, hfind, hrh]
        rw [hbin]
        by_cases hfi : (f.id == i) = true
        · have hfid : f.id = i := by simpa using hfi
          have hfe : file = f := by
            have hmem := List.mem_of_find?_eq_some hfind
            have hfileid : file.id = i := by simpa using List.find?_some hfind
            exact List.inj_on_of_nodup_map hN hmem hf (by rw [hfileid, hfid])
          subst hfe
          exact ⟨_, mem_map_of_id_eq_file (fun x =>
              { x with versionHistory := file.versionHistory ++ [v],
                       redoHistory := rest }) hf hfid,
            rfl, Or.inr ⟨v, rest, hrh, rfl, rfl⟩⟩
        · have hfne : ¬ f.id = i := by simpa using hfi
          exact ⟨f, mem_map_of_id_ne_file _ hf hfne, rfl, Or.inl ⟨rfl, rfl⟩⟩
  · intro f hf
    by_cases hfi : (f.id == i) = true
    · have hfid : f.id = i := by simpa using hfi
      exact ⟨_, mem_map_of_id_eq_file (fun x => { x with filename := fn }) hf hfid,
        rfl, rfl, rfl⟩
    · have hfne : ¬ f.id = i := by simpa using hfi
      exact ⟨f, mem_map_of_id_ne_file _ hf hfne, rfl, rfl, rfl⟩
  · intro f hf
    by_cases hfi : (f.id == i) = true
    · have hfid : f.id = i := by simpa using hfi
      exact ⟨_, mem_map_of_id_eq_file (fun x => { x with description := dsc }) hf hfid,
        rfl, rfl, rfl⟩
    · have hfne : ¬ f.id = i := by simpa using hfi
      exact ⟨f, mem_map_of_id_ne_file _ hf hfne, rfl, rfl, rfl⟩
  · intro f hf
    by_cases hfi : (f.id == i) = true
    · have hfid : f.id = i := by simpa using hfi
      exact ⟨_, mem_map_of_id_eq_file (fun x => { x with url := pv }) hf hfid,
        rfl, rfl, rfl⟩
    · have hfne : ¬ f.id = i := by simpa using hfi
      exact ⟨f, mem_map_of_id_ne_file _ hf hfne, rfl, rfl, rfl⟩
  · intro f hf
    exact List.mem_append.mpr (Or.inl hf)
  · intro f hf
    exact List.mem_append.mpr (Or.inl hf)
  · intro g hg
    exact List.mem_of_mem_filter hg

/-! Witnesses: concrete instantiations of the theorems with hypotheses. -/

/-- The current project of the concrete persistence scenarios. -/
def proj1 : Project := ⟨1, "My First Project", 1, "t0", "t0", [], []⟩

/-- The incoming project of the switch scenario; its chat snapshot is
empty, so the welcome substitution fires. -/
def proj2 : Project := ⟨2, "Second Project", 1, "t0", "t1", [fileB], []⟩

/-- Concrete session with a logged-in user and a current project. -/
def c2State : AppState :=
  { emptyState with
      user := some "a@b.c"
      currentProject := some proj1
      mediaBin := [fileA]
      messages := [plainMsg] }

/-- Witness for the switch ordering theorem at a concrete session. -/
theorem switchProject_saves_before_load_witness :
    ((switchProject 2 (.ok proj2) 11 c2State).2
        = [NetRequest.putProject 1 c2State.mediaBin c2State.messages,
           NetRequest.getProject 2])
    ∧ (switchProject 2 (.ok proj2) 11 c2State).1.mediaBin = proj2.media_bin
    ∧ (switchProject 2 (.ok proj2) 11 c2State).1.currentProject = some proj2
    ∧ (proj2.chat_history ≠ [] →
        (switchProject 2 (.ok proj2) 11 c2State).1.messages = proj2.chat_history)
    ∧ (proj2.chat_history = [] →
        (switchProject 2 (.ok proj2) 11 c2State).1.messages = [welcomeMessage 11]) :=
  switchProject_saves_before_load c2State 2 proj2 11 "a@b.c" proj1 rfl rfl

/-- Concrete session for the edit-resolution frame theorem. -/
def c4State : AppState := { emptyState with messages := [msgT], mediaBin := [fileA] }

/-- Witness for the edit-resolution frame theorem at a concrete session. -/
theorem resolveEdit_touches_only_target_message_witness :
    ((handleSuccessfulEdit "v1" "u1" "m1" "done" 5 c4State).mediaBin = c4State.mediaBin)
    ∧ (∀ m ∈ c4State.messages, m.id ≠ "m1" →
        m ∈ (handleSuccessfulEdit "v1" "u1" "m1" "done" 5 c4State).messages)
    ∧ (∀ m ∈ c4State.messages, m.id = "m1" →
        ∃ m' ∈ (handleSuccessfulEdit "v1" "u1" "m1" "done" 5 c4State).messages,
          m'.id = "m1" ∧ m'.role = m.role ∧ m'.content = "done"
          ∧ m'.status = some MsgStatus.completed ∧ m'.videoUrl = some "u1")
    ∧ ((handleSendFailure "m1" 6 c4State).mediaBin = c4State.mediaBin)
    ∧ (∀ m ∈ c4State.messages, m.id ≠ "m1" →
        m ∈ (handleSendFailure "m1" 6 c4State).messages)
    ∧ (∀ m ∈ c4State.messages, m.id = "m1" →
        ∃ m' ∈ (handleSendFailure "m1" 6 c4State).messages,
          m'.id = "m1" ∧ m'.role = m.role ∧ m'.content = apologyText
          ∧ m'.status = some MsgStatus.error ∧ m'.timestamp = 6) :=
  resolveEdit_touches_only_target_message c4State "v1" "u1" "m1" "done" "m1" 5 6

/-- Concrete two-entry session with a current project for the deletion
theorem. -/
def c5StateP : AppState :=
  { c5State with currentProject := some proj1, user := some "a@b.c" }

/-- Witness for the deletion theorem at a concrete session. -/
theorem deleteMediaFile_behavior_witness :
    ((deleteMediaFile "vidA" c5StateP).1.mediaBin
        = c5StateP.mediaBin.filter fun f => f.id != "vidA")
    ∧ (c5StateP.activeVideoId = some "vidA" →
        (deleteMediaFile "vidA" c5StateP).1.activeVideoId
          = ((c5StateP.mediaBin.filter fun f => f.id != "vidA").head?.map MediaFile.id))
    ∧ (c5StateP.activeVideoId ≠ some "vidA" →
        (deleteMediaFile "vidA" c5StateP).1.activeVideoId = c5StateP.activeVideoId)
    ∧ ((deleteMediaFile "vidA" c5StateP).1.activeAudioId = c5StateP.activeAudioId)
    ∧ ((deleteMediaFile "vidA" c5StateP).2
        = [NetRequest.putProject 1
            (c5StateP.mediaBin.filter fun f => f.id != "vidA") c5StateP.messages]) :=
  deleteMediaFile_behavior "vidA" c5StateP proj1 "a@b.c" rfl rfl

/-- An idempotent analysis message with the derived `ai-desc-` id. -/
def analysisMsg : ChatMessage :=
  ⟨"ai-desc-v1", .assistant, "analysis", 3, none, none, none, none, none⟩

/-- Witness for the analysis-only dedup theorem at a concrete message. -/
theorem addMessage_dedup_analysis_only_witness :
    ((∃ m' ∈ emptyState.messages, m'.id = analysisMsg.id) →
        addMessage analysisMsg emptyState = emptyState)
    ∧ ((∀ m' ∈ emptyState.messages, m'.id ≠ analysisMsg.id) →
        ((addMessage analysisMsg (addMessage analysisMsg emptyState)).messages.filter
            fun x => x.id == analysisMsg.id) = [analysisMsg]) :=
  addMessage_dedup_analysis_only analysisMsg emptyState (by decide)

/-- Concrete one-message session for the patch theorem. -/
def c8State : AppState := { emptyState with messages := [msgT] }

/-- Witness for the patch theorem at a concrete session, with an update
that includes neither `role` nor `timestamp`. -/
theorem updateMessage_behavior_witness :
    ((updateMessage "m1" ChatMessageUpdate.none c8State).messages.length
        = c8State.messages.length)
    ∧ ((∀ m ∈ c8State.messages, m.id ≠ "m1") →
        updateMessage "m1" ChatMessageUpdate.none c8State = c8State)
    ∧ (∀ m ∈ c8State.messages, m.id ≠ "m1" →
        m ∈ (updateMessage "m1" ChatMessageUpdate.none c8State).messages)
    ∧ (ChatMessageUpdate.none.role = none → ChatMessageUpdate.none.timestamp = none →
        ∀ n : Nat,
          ((updateMessage "m1" ChatMessageUpdate.none c8State).messages[n]?.map
              ChatMessage.role)
            = (c8State.messages[n]?.map ChatMessage.role)
          ∧ ((updateMessage "m1" ChatMessageUpdate.none c8State).messages[n]?.map
              ChatMessage.timestamp)
            = (c8State.messages[n]?.map ChatMessage.timestamp))
    ∧ ((updateMessage "m1" ChatMessageUpdate.none c8State).mediaBin = c8State.mediaBin) :=
  updateMessage_behavior "m1" ChatMessageUpdate.none c8State

/-- Concrete two-entry bin with distinct ids for the stack theorems. -/
def c3State : AppState := { emptyState with mediaBin := [fileA, fileB] }

/-- Witness for the round-trip theorem at a concrete session. -/
theorem revert_redo_roundtrip_witness :
    ((redoLastAction "v1" 2 (revertToPreviousVersion "v1" 1 c3State)).mediaBin.map
        fun g => (g.id, g.versionHistory, g.redoHistory))
      = c3State.mediaBin.map fun g => (g.id, g.versionHistory, g.redoHistory) :=
  revert_redo_roundtrip c3State "v1" 1 2 fileA (by decide) (by decide) (by decide)
    (by decide)

/-- Witness for the redo-discard theorem at a concrete session. -/
theorem appendVersion_sole_redo_discard_witness :
    (∀ f ∈ c3State.mediaBin, f.id = "v1" →
        ∃ g ∈ (handleSuccessfulEditV1 "v1" "u1" "m1" "c1" 4 c3State).mediaBin,
          g.id = "v1" ∧ g.url = "u1" ∧ g.versionHistory = f.versionHistory ++ ["u1"]
          ∧ g.redoHistory = [])
    ∧ (∀ f ∈ c3State.mediaBin,
        ∃ g ∈ (revertToPreviousVersion "v1" 4 c3State).mediaBin,
          g.id = f.id ∧ (g.redoHistory = f.redoHistory
            ∨ g.redoHistory = f.versionHistory.getLastD "" :: f.redoHistory))
    ∧ (∀ f ∈ c3State.mediaBin,
        ∃ g ∈ (redoLastAction "v1" 4 c3State).mediaBin,
          g.id = f.id
          ∧ ((g.versionHistory = f.versionHistory ∧ g.redoHistory = f.redoHistory)
            ∨ ∃ v rest, f.redoHistory = v :: rest
                ∧ g.versionHistory = f.versionHistory ++ [v] ∧ g.redoHistory = rest))
    ∧ (∀ f ∈ c3State.mediaBin,
        ∃ g ∈ (renameMediaFile "v1" "fn1" c3State).mediaBin,
          g.id = f.id ∧ g.versionHistory = f.versionHistory
          ∧ g.redoHistory = f.redoHistory)
    ∧ (∀ f ∈ c3State.mediaBin,
        ∃ g ∈ (updateMediaFileDescription "v1" "d1" c3State).mediaBin,
          g.id = f.id ∧ g.versionHistory = f.versionHistory
          ∧ g.redoHistory = f.redoHistory)
    ∧ (∀ f ∈ c3State.mediaBin,
        ∃ g ∈ (setActiveVideoVersion "v1" "p1" c3State).mediaBin,
          g.id = f.id ∧ g.versionHistory = f.versionHistory
          ∧ g.redoHistory = f.redoHistory)
    ∧ ((handleSuccessfulEdit "v1" "u1" "m1" "c1" 4 c3State).mediaBin = c3State.mediaBin)
    ∧ (∀ f ∈ c3State.mediaBin, f ∈ (addMediaFile audioDraft c3State).mediaBin)
    ∧ (∀ f ∈ c3State.mediaBin,
        f ∈ (addEditedMediaToLibrary "purl" "pf" MediaType.video 4 c3State).1.mediaBin)
    ∧ (∀ g ∈ (deleteMediaFile "v1" c3State).1.mediaBin, g ∈ c3State.mediaBin)
    ∧ ((clearChat c3State).1.mediaBin = c3State.mediaBin) :=
  appendVersion_sole_redo_discard c3State "v1" "u1" "m1" "c1" "fn1" "d1" "p1" 4
    audioDraft "purl" "pf" MediaType.video (by decide)

end VideoStore
